import Mathlib

/-!
Verification development for the vizia textbox interaction controller
(`crates/vizia_core/src/views/textbox.rs`).

The Rust source is shallowly embedded: pure computations become Lean
functions, stateful handlers become explicit state-passing functions, and
external collaborators (the cosmic-text shaping/editing engine, the OS
clipboard, the layout cache) are passed in as explicit parameters of an
environment record.  Machine floats (`f32`) are modelled over `ℚ`;
`usize`/`i32` become `Nat`/`Int`; the `u8` narrowing cast in the
accessibility projector is modelled by `% 256`.
-/

namespace VTextbox

/-- A buffer cursor, mirroring `cosmic_text::Cursor` (line index into the
hard lines of the buffer, plus a byte offset within that line). -/
structure Cursor where
  line : Nat
  index : Nat
deriving DecidableEq, Repr

/-- The observable state of the external `cosmic_text` editor owned by the
textbox: the hard lines of the buffer (split at real newlines), the cursor,
and the optional selection anchor (`select_opt`). -/
structure EditorState where
  lines : List String
  cursor : Cursor
  select : Option Cursor
deriving DecidableEq, Repr

/-- One glyph of a laid-out visual line, mirroring the fields of
`cosmic_text::LayoutGlyph` that the textbox reads: the byte range
`[start, stop)` into the hard line's text, and the physical x
position/width. -/
structure Glyph where
  start : Nat
  stop : Nat
  x : ℚ
  w : ℚ
deriving DecidableEq, Repr

/-- One visual line produced by the external shaping engine, mirroring the
fields of `cosmic_text::LayoutRun` read by the textbox: the hard-line index
`line_i`, the full text of that hard line (`text`, newline stripped), the
glyph list, and the rendered line width `line_w`. -/
structure LayoutRun where
  line_i : Nat
  text : String
  glyphs : List Glyph
  line_w : ℚ
deriving DecidableEq, Repr

/-- Identity of an accessibility node: either the textbox's own node or the
per-visual-line child node created by `AccessNode::new_from_parent(node_id,
index)` (all child ids share the same parent, so the running index
determines identity). -/
inductive AccessId where
  | root : AccessId
  | line : Nat → AccessId
deriving DecidableEq, Repr

/-- `accesskit::TextPosition`: a node identity plus a character index. -/
structure TextPos where
  node : AccessId
  character_index : Nat
deriving DecidableEq, Repr

/-- `accesskit::TextSelection`: an anchor/focus pair of text positions. -/
structure TextSel where
  anchor : TextPos
  focus : TextPos
deriving DecidableEq, Repr

/-- `line.glyphs.first().map(|glyph| glyph.start).unwrap_or_default()`. -/
def firstGlyphPos (r : LayoutRun) : Nat :=
  (r.glyphs.head?.map (fun g => g.start)).getD 0

/-- `line.glyphs.last().map(|glyph| glyph.end).unwrap_or_default()`. -/
def lastGlyphPos (r : LayoutRun) : Nat :=
  (r.glyphs.getLast?.map (fun g => g.stop)).getD 0

/-- The running `line_length` accumulated by the accessibility export loop:
the sum of `(glyph.end - glyph.start) as u8` over the glyphs of the run
(the `u8` cast is modelled by `% 256`). -/
def lineLength (r : LayoutRun) : Nat :=
  (r.glyphs.map (fun g => (g.stop - g.start) % 256)).sum

/-- The `character_lengths` array built for one visual line by
`Textbox::accessibility`: one `u8` byte length per glyph, plus a synthetic
newline entry of length 1 appended exactly when the last glyph's end offset
equals the byte length of the hard line's text
(`last_glyph_pos == line.text.len()`). -/
def runCharacterLengths (r : LayoutRun) : List Nat :=
  let base := r.glyphs.map (fun g => (g.stop - g.start) % 256)
  if lastGlyphPos r = r.text.utf8ByteSize then base ++ [1] else base

/-- The `character_positions` array: one glyph x position per glyph, with
the synthetic newline placed at `line.line_w`. -/
def runCharacterPositions (r : LayoutRun) : List ℚ :=
  let base := r.glyphs.map (fun g => g.x)
  if lastGlyphPos r = r.text.utf8ByteSize then base ++ [r.line_w] else base

/-- The `character_widths` array: one glyph width per glyph, with the
synthetic newline given width 0. -/
def runCharacterWidths (r : LayoutRun) : List ℚ :=
  let base := r.glyphs.map (fun g => g.w)
  if lastGlyphPos r = r.text.utf8ByteSize then base ++ [0] else base

/-- Accumulator of the selection-export walk in `Textbox::accessibility`:
the candidate anchor/focus (node, character index) pairs, the running
per-hard-line cursor offset, and the previous hard-line index
(`usize::MAX` sentinel modelled as `none`). -/
structure ExportAcc where
  activeLine : AccessId
  activeCursor : Nat
  anchorLine : AccessId
  anchorCursor : Nat
  currentCursor : Nat
  prevLineIndex : Option Nat
deriving DecidableEq, Repr

/-- One iteration of the export walk of `Textbox::accessibility` for the
visual line at enumeration index `idx`: reset the running offset when the
hard-line index changes, then record the cursor and selection-anchor
positions relative to the running offset, then advance the offset by the
line's length. -/
def exportStep (cursor selection : Cursor) (idx : Nat) (r : LayoutRun)
    (acc : ExportAcc) : ExportAcc :=
  let ll := lineLength r
  let acc := if some r.line_i ≠ acc.prevLineIndex then
      { acc with currentCursor := 0 } else acc
  let acc :=
    if r.line_i = cursor.line then
      if acc.prevLineIndex ≠ some r.line_i then
        if cursor.index ≤ ll then
          { acc with activeLine := AccessId.line idx, activeCursor := cursor.index }
        else acc
      else
        if cursor.index > acc.currentCursor then
          { acc with activeLine := AccessId.line idx,
                     activeCursor := cursor.index - acc.currentCursor }
        else acc
    else acc
  let acc :=
    if r.line_i = selection.line then
      if acc.prevLineIndex ≠ some r.line_i then
        if selection.index ≤ ll then
          { acc with anchorLine := AccessId.line idx, anchorCursor := selection.index }
        else acc
      else
        if selection.index > acc.currentCursor then
          { acc with anchorLine := AccessId.line idx,
                     anchorCursor := selection.index - acc.currentCursor }
        else acc
    else acc
  { acc with currentCursor := acc.currentCursor + ll,
             prevLineIndex := some r.line_i }

/-- The export walk over the enumerated layout runs. -/
def exportLoop (cursor selection : Cursor) :
    List LayoutRun → Nat → ExportAcc → ExportAcc
  | [], _, acc => acc
  | r :: rest, idx, acc =>
      exportLoop cursor selection rest (idx + 1) (exportStep cursor selection idx r acc)

/-- The selection exported by `Textbox::accessibility`: both positions
default to the textbox's own node id with character index 0, and
`selection` is `editor.select_opt().unwrap_or(cursor)`. -/
def exportSelection (runs : List LayoutRun) (ed : EditorState) : TextSel :=
  let cursor := ed.cursor
  let selection := ed.select.getD cursor
  let acc := exportLoop cursor selection runs 0
    { activeLine := AccessId.root, activeCursor := 0,
      anchorLine := AccessId.root, anchorCursor := 0,
      currentCursor := 0, prevLineIndex := none }
  { anchor := { node := acc.anchorLine, character_index := acc.anchorCursor },
    focus := { node := acc.activeLine, character_index := acc.activeCursor } }

/-- Accumulator of the import walk in the `ActionRequest(SetTextSelection)`
handler of `Textbox::event`. -/
structure ImportAcc where
  selLine : Nat
  selIndex : Nat
  currentCursor : Nat
  prevLineIndex : Option Nat
deriving DecidableEq, Repr

/-- One iteration of the import walk: note that, unlike the export walk,
the node-identity check reads `current_cursor` BEFORE the hard-line reset,
and the per-run length is `last_glyph_pos - first_glyph_pos`. -/
def importStep (anchor : TextPos) (idx : Nat) (r : LayoutRun)
    (acc : ImportAcc) : ImportAcc :=
  let acc := if AccessId.line idx = anchor.node then
      { acc with selLine := r.line_i,
                 selIndex := anchor.character_index + acc.currentCursor }
    else acc
  let acc := if some r.line_i ≠ acc.prevLineIndex then
      { acc with currentCursor := 0 } else acc
  let ll := lastGlyphPos r - firstGlyphPos r
  { acc with currentCursor := acc.currentCursor + ll,
             prevLineIndex := some r.line_i }

/-- The import walk over the enumerated layout runs. -/
def importLoop (anchor : TextPos) :
    List LayoutRun → Nat → ImportAcc → ImportAcc
  | [], _, acc => acc
  | r :: rest, idx, acc =>
      importLoop anchor rest (idx + 1) (importStep anchor idx r acc)

/-- The buffer cursor that the `SetTextSelection` handler resolves the
request's anchor position to (`Cursor::new(selection_line_index,
selection_index)`). -/
def importSelection (runs : List LayoutRun) (anchor : TextPos) : Cursor :=
  let acc := importLoop anchor runs 0
    { selLine := 0, selIndex := 0, currentCursor := 0, prevLineIndex := none }
  { line := acc.selLine, index := acc.selIndex }

/-- The full effect of the `ActionRequest(SetTextSelection)` handler on the
editor: it installs the resolved anchor as the selection
(`editor.set_select_opt(Some(selection_cursor))`) and — per the `TODO` in
the source — never moves the cursor/focus. -/
def setTextSelectionHandler (runs : List LayoutRun) (sel : TextSel)
    (ed : EditorState) : EditorState :=
  { ed with select := some (importSelection runs sel.anchor) }

/-- Layout of the two-hard-line buffer with text `a`, newline, `b`: one
visual line per hard line. -/
def runsAB : List LayoutRun :=
  [ { line_i := 0, text := "a",
      glyphs := [{ start := 0, stop := 1, x := 0, w := 1 }], line_w := 1 },
    { line_i := 1, text := "b",
      glyphs := [{ start := 0, stop := 1, x := 0, w := 1 }], line_w := 1 } ]

/-- Editor state over that buffer with the selection anchor and the cursor
both at the start of the second hard line. -/
def edAB : EditorState :=
  { lines := ["a", "b"], cursor := { line := 1, index := 0 },
    select := some { line := 1, index := 0 } }

/-- C1: the export/import round-trip fails on the code.  Exporting the
selection of `edAB` under layout `runsAB` yields the pair
(line-node 1, character_index 0); feeding that same pair back through the
`SetTextSelection` handler resolves it to `Cursor(1, 1)` — not the original
`Cursor(1, 0)` — because the import walk resets its running hard-line
offset only AFTER the node-identity check, whereas the export walk resets
it before. -/
theorem c1_roundtrip_divergence :
    exportSelection runsAB edAB =
      { anchor := { node := AccessId.line 1, character_index := 0 },
        focus := { node := AccessId.line 1, character_index := 0 } } ∧
    (setTextSelectionHandler runsAB (exportSelection runsAB edAB) edAB).select
      = some { line := 1, index := 1 } ∧
    edAB.select = some { line := 1, index := 0 } := by
  decide

/-- If the requested anchor node matches none of the enumerated line nodes,
the import walk never touches the `selection_line_index`/`selection_index`
accumulators. -/
theorem importLoop_no_match (anchor : TextPos) :
    ∀ (rs : List LayoutRun) (idx : Nat) (acc : ImportAcc),
      (∀ j, idx ≤ j → j < idx + rs.length → anchor.node ≠ AccessId.line j) →
      (importLoop anchor rs idx acc).selLine = acc.selLine ∧
      (importLoop anchor rs idx acc).selIndex = acc.selIndex := by
  intro rs
  induction rs with
  | nil => intro idx acc _; simp [importLoop]
  | cons r rest ih =>
    intro idx acc h
    have hidx : ¬ (AccessId.line idx = anchor.node) := by
      intro he
      exact h idx le_rfl (by simp only [List.length_cons]; omega) he.symm
    have hstep : (importStep anchor idx r acc).selLine = acc.selLine ∧
        (importStep anchor idx r acc).selIndex = acc.selIndex := by
      simp only [importStep, if_neg hidx]
      split <;> simp
    have hrest := ih (idx + 1) (importStep anchor idx r acc)
      (by intro j h1 h2; exact h j (by omega) (by simp at h2 ⊢; omega))
    simp only [importLoop]
    exact ⟨hrest.1.trans hstep.1, hrest.2.trans hstep.2⟩

/-- C4 (amended): a `SetTextSelection` request whose anchor node matches no
visual line of the current layout is NOT a no-op — the handler installs a
selection anchor at `Cursor(0, 0)` (start of buffer), replacing whatever
selection was previously active. -/
theorem c4_unknown_node_installs_buffer_start (runs : List LayoutRun)
    (sel : TextSel) (ed : EditorState)
    (h : ∀ j, j < runs.length → sel.anchor.node ≠ AccessId.line j) :
    setTextSelectionHandler runs sel ed =
      { ed with select := some { line := 0, index := 0 } } := by
  have hloop := importLoop_no_match sel.anchor runs 0
    { selLine := 0, selIndex := 0, currentCursor := 0, prevLineIndex := none }
    (by intro j h1 h2; exact h j (by omega))
  simp only [setTextSelectionHandler, importSelection]
  rw [hloop.1, hloop.2]

/-- A single-hard-line layout for the buffer text `ab`. -/
def runsPlain : List LayoutRun :=
  [ { line_i := 0, text := "ab",
      glyphs := [{ start := 0, stop := 1, x := 0, w := 1 },
                 { start := 1, stop := 2, x := 1, w := 1 }], line_w := 2 } ]

/-- Editor state over the single-line buffer `ab`, with an active selection
from byte 0 to byte 2. -/
def edPlain : EditorState :=
  { lines := ["ab"], cursor := { line := 0, index := 2 },
    select := some { line := 0, index := 2 } }

/-- C4 witness: the amended theorem applied to a concrete request whose
anchor node is the textbox's own root node (so no line node matches). -/
theorem c4_witness :
    setTextSelectionHandler runsPlain
      { anchor := { node := AccessId.root, character_index := 4 },
        focus := { node := AccessId.root, character_index := 4 } } edPlain =
      { edPlain with select := some { line := 0, index := 0 } } :=
  c4_unknown_node_installs_buffer_start runsPlain
    { anchor := { node := AccessId.root, character_index := 4 },
      focus := { node := AccessId.root, character_index := 4 } } edPlain
    (by decide)

/-- C4: counterexample to the claim as stated.  A request whose anchor node
(`line 5`) matches no visual line of `runsPlain` is not resolved to a
no-op: it replaces the prior selection anchor `Cursor(0, 2)` with
`Cursor(0, 0)`. -/
theorem c4_unknown_node_counterexample :
    (setTextSelectionHandler runsPlain
        { anchor := { node := AccessId.line 5, character_index := 7 },
          focus := { node := AccessId.line 5, character_index := 7 } }
        edPlain).select = some { line := 0, index := 0 } ∧
    edPlain.select = some { line := 0, index := 2 } := by
  decide

/-- Split a character list at real newline characters, mirroring how the
buffer's hard lines arise from the source text (`BufferLine`s in
cosmic-text, `lines.iter().map(|line| line.text()).join("\n")` in
`clone_text`). -/
def splitLines : List Char → List (List Char)
  | [] => [[]]
  | c :: rest =>
    if c = '\n' then [] :: splitLines rest
    else
      match splitLines rest with
      | [] => [[c]]
      | l :: ls => (c :: l) :: ls

/-- The hard lines of a source text. -/
def hardLines (content : String) : List String :=
  (splitLines content.data).map (fun l => { data := l })

/-- The text of hard line `h` of a source text. -/
def lineAt (content : String) (h : Nat) : String :=
  (hardLines content).getD h { data := [] }

/-- Whether hard line `h` ends in a real newline in the source text
(every hard line except the last one does). -/
def endsInNewline (content : String) (h : Nat) : Bool :=
  decide (h + 1 < (hardLines content).length)

/-- `glyphsChain gs a = some b` states that the glyphs `gs` are nonempty
contiguous byte ranges tiling `[a, b)` exactly. -/
def glyphsChain : List Glyph → Nat → Option Nat
  | [], a => some a
  | g :: rest, a =>
    if g.start = a ∧ a < g.stop then glyphsChain rest g.stop else none

/-- Well-formedness of the visual lines belonging to one hard line with
text `s`, as produced by the shaping engine when nothing is stripped: the
runs' glyphs tile the byte range of `s` contiguously starting at offset
`a`, every run carries the full hard-line text in its `text` field, runs
before the last stop strictly short of the end, and the last run reaches
the end (its glyph list being empty only for an empty hard line). -/
def runsCover (s : String) : List LayoutRun → Nat → Bool
  | [], _ => false
  | [r], a =>
      decide (r.text = s) &&
      decide (glyphsChain r.glyphs a = some s.utf8ByteSize) &&
      (!r.glyphs.isEmpty || decide (s.utf8ByteSize = 0))
  | r :: r2 :: rest, a =>
      decide (r.text = s) &&
      (match glyphsChain r.glyphs a with
       | some m =>
          decide (a < m) && decide (m < s.utf8ByteSize) &&
          runsCover s (r2 :: rest) m
       | none => false)

/-- All glyphs of the given runs span at most 255 bytes, so the `u8` cast
of the source is lossless. -/
def glyphBound (rs : List LayoutRun) : Bool :=
  rs.all (fun r => r.glyphs.all (fun g => decide (g.stop - g.start ≤ 255)))

/-- The visual lines that the accessibility export attributes to hard line
`h`. -/
def hardLineRuns (runs : List LayoutRun) (h : Nat) : List LayoutRun :=
  runs.filter (fun r => decide (r.line_i = h))

/-- The sum of the exported `character_lengths` entries over all accessible
line nodes belonging to hard line `h`. -/
def hardLineSum (runs : List LayoutRun) (h : Nat) : Nat :=
  ((hardLineRuns runs h).map (fun r => (runCharacterLengths r).sum)).sum

theorem glyphsChain_le :
    ∀ (gs : List Glyph) (a b : Nat), glyphsChain gs a = some b → a ≤ b := by
  intro gs
  induction gs with
  | nil => intro a b hc; simp [glyphsChain] at hc; omega
  | cons g rest ih =>
    intro a b hc
    simp only [glyphsChain] at hc
    split at hc
    · next hg => exact le_trans (le_of_lt hg.2) (ih g.stop b hc)
    · exact absurd hc (by simp)

theorem glyphsChain_sum :
    ∀ (gs : List Glyph) (a b : Nat), glyphsChain gs a = some b →
      (∀ g ∈ gs, g.stop - g.start ≤ 255) →
      ((gs.map (fun g => (g.stop - g.start) % 256)).sum) = b - a := by
  intro gs
  induction gs with
  | nil => intro a b hc _; simp [glyphsChain] at hc; simp [hc]
  | cons g rest ih =>
    intro a b hc hb
    simp only [glyphsChain] at hc
    split at hc
    · next hg =>
      have hrest := ih g.stop b hc (fun g' hg' => hb g' (List.mem_cons_of_mem _ hg'))
      have hle := glyphsChain_le rest g.stop b hc
      have hmod : (g.stop - g.start) % 256 = g.stop - g.start :=
        Nat.mod_eq_of_lt (by have := hb g (List.mem_cons_self _ _); omega)
      simp only [List.map_cons, List.sum_cons, hrest, hmod, hg.1]
      omega
    · exact absurd hc (by simp)

theorem glyphsChain_last :
    ∀ (gs : List Glyph) (a b : Nat), gs ≠ [] → glyphsChain gs a = some b →
      (gs.getLast?.map (fun g => g.stop)).getD 0 = b := by
  intro gs
  induction gs with
  | nil => intro a b h; exact absurd rfl h
  | cons g rest ih =>
    intro a b _ hc
    simp only [glyphsChain] at hc
    split at hc
    · cases rest with
      | nil => simp [glyphsChain] at hc; simp [hc]
      | cons g2 rest2 =>
        rw [List.getLast?_cons_cons]
        exact ih g.stop b (by simp) hc
    · exact absurd hc (by simp)

/-- The key accounting fact behind the accessibility export: if the runs
`rs` cover the byte range of `s` from offset `a` on, the exported
`character_lengths` entries over `rs` sum to `|s| - a` for the glyphs plus
exactly one synthetic newline entry, appended at the run whose last glyph
reaches the end of the hard-line text. -/
theorem runsCover_sum (s : String) :
    ∀ (rs : List LayoutRun) (a : Nat), runsCover s rs a = true →
      glyphBound rs = true →
      ((rs.map (fun r => (runCharacterLengths r).sum)).sum) + a =
        s.utf8ByteSize + 1 := by
  intro rs
  induction rs with
  | nil => intro a hc _; simp [runsCover] at hc
  | cons r rest ih =>
    intro a hc hb
    have hbr : ∀ g ∈ r.glyphs, g.stop - g.start ≤ 255 := by
      intro g hg
      have := (List.all_eq_true.mp hb) r (List.mem_cons_self _ _)
      have := (List.all_eq_true.mp this) g hg
      exact of_decide_eq_true this
    cases rest with
    | nil =>
      simp only [runsCover, Bool.and_eq_true, Bool.or_eq_true, decide_eq_true_eq] at hc
      obtain ⟨⟨ht, hchain⟩, hemp⟩ := hc
      cases hgs : r.glyphs with
      | nil =>
        rw [hgs] at hchain hemp
        simp only [glyphsChain, Option.some.injEq] at hchain
        simp only [List.isEmpty_nil, Bool.not_true, Bool.false_eq_true, false_or,
          decide_eq_true_eq] at hemp
        simp only [runCharacterLengths, lastGlyphPos, hgs, ht, hemp,
          List.getLast?_nil, Option.map_none', Option.getD_none, List.map_nil,
          if_pos rfl, if_true, List.nil_append, List.map_cons, List.sum_cons,
          List.sum_nil]
        omega
      | cons g gs =>
        have hne : r.glyphs ≠ [] := by rw [hgs]; simp
        have hlast := glyphsChain_last r.glyphs a s.utf8ByteSize hne hchain
        have hsum := glyphsChain_sum r.glyphs a s.utf8ByteSize hchain hbr
        have hle := glyphsChain_le r.glyphs a s.utf8ByteSize hchain
        have hcond : lastGlyphPos r = r.text.utf8ByteSize := by
          rw [ht]
          simpa [lastGlyphPos] using hlast
        have hrsum : (runCharacterLengths r).sum = (s.utf8ByteSize - a) + 1 := by
          simp only [runCharacterLengths, if_pos hcond, List.sum_append,
            List.sum_cons, List.sum_nil, add_zero, hsum]
        simp only [List.map_cons, List.map_nil, List.sum_cons, List.sum_nil,
          hrsum, add_zero]
        omega
    | cons r2 rest2 =>
      simp only [runsCover, Bool.and_eq_true, decide_eq_true_eq] at hc
      obtain ⟨ht, hm⟩ := hc
      cases hchain : glyphsChain r.glyphs a with
      | none => rw [hchain] at hm; simp at hm
      | some m =>
        rw [hchain] at hm
        simp only [Bool.and_eq_true, decide_eq_true_eq] at hm
        obtain ⟨⟨ham, hms⟩, hcover⟩ := hm
        have hne : r.glyphs ≠ [] := by
          intro he
          rw [he] at hchain
          simp only [glyphsChain, Option.some.injEq] at hchain
          omega
        have hlast := glyphsChain_last r.glyphs a m hne hchain
        have hsum := glyphsChain_sum r.glyphs a m hchain hbr
        have hbrest : glyphBound (r2 :: rest2) = true := by
          simp only [glyphBound, List.all_eq_true] at hb ⊢
          intro x hx
          exact hb x (List.mem_cons_of_mem _ hx)
        have hrest := ih m hcover hbrest
        have hlp : lastGlyphPos r = m := by simpa [lastGlyphPos] using hlast
        have hnosyn : ¬ (lastGlyphPos r = r.text.utf8ByteSize) := by
          rw [ht, hlp]
          omega
        have hrsum : (runCharacterLengths r).sum = m - a := by
          simp only [runCharacterLengths, if_neg hnosyn, hsum]
        simp only [List.map_cons, List.sum_cons, hrsum]
        simp only [List.map_cons, List.sum_cons] at hrest
        omega

/-- C5 (amended): for every accessibility export over a layout whose visual
lines for hard line `h` are a contiguous, lossless cover of that hard
line's text, the sum of the `character_lengths` entries over the hard
line's nodes equals the hard line's byte length PLUS ONE — unconditionally,
not only when the hard line ends in a real newline: the synthetic newline
entry is appended whenever the last glyph's end offset equals the length of
the hard line's text, which also happens on the final hard line of the
buffer. -/
theorem c5_hard_line_sum_amended (content : String) (runs : List LayoutRun)
    (h : Nat) (hh : h < (hardLines content).length)
    (hcover : runsCover (lineAt content h) (hardLineRuns runs h) 0 = true)
    (hbound : glyphBound (hardLineRuns runs h) = true) :
    hardLineSum runs h = (lineAt content h).utf8ByteSize + 1 := by
  have := runsCover_sum (lineAt content h) (hardLineRuns runs h) 0 hcover hbound
  simpa [hardLineSum] using this

/-- The one-line buffer text used in the C5 counterexample. -/
def strAB : String := "ab"

/-- C5: counterexample to the claim as stated.  For the buffer `ab` —
a single hard line that does NOT end in a real newline — the exported
`character_lengths` of its one visual line sum to 3, not to the hard line's
byte length 2: the synthetic newline is appended although no real newline
follows. -/
theorem c5_counterexample :
    hardLineSum runsPlain 0 = 3 ∧
    (lineAt strAB 0).utf8ByteSize = 2 ∧
    endsInNewline strAB 0 = false ∧
    hardLineSum runsPlain 0 ≠
      (lineAt strAB 0).utf8ByteSize +
        (if endsInNewline strAB 0 then 1 else 0) := by
  decide

/-- Layout for the two-hard-line buffer `ab`, newline, `cd`: one visual
line per hard line. -/
def runsABCD : List LayoutRun :=
  [ { line_i := 0, text := "ab",
      glyphs := [{ start := 0, stop := 1, x := 0, w := 1 },
                 { start := 1, stop := 2, x := 1, w := 1 }], line_w := 2 },
    { line_i := 1, text := "cd",
      glyphs := [{ start := 0, stop := 1, x := 0, w := 1 },
                 { start := 1, stop := 2, x := 1, w := 1 }], line_w := 2 } ]

/-- The two-hard-line buffer text used in the C5 witness. -/
def strABCD : String := "ab\ncd"

/-- C5 witness: the amended theorem applied to the concrete buffer
`ab`, newline, `cd` at its final hard line (which ends in no real
newline): the exported lengths of hard line 1 sum to its byte length 2
plus 1. -/
theorem c5_witness :
    hardLineSum runsABCD 1 = (lineAt strABCD 1).utf8ByteSize + 1 :=
  c5_hard_line_sum_amended strABCD runsABCD 1 (by decide) (by decide) (by decide)

/-- An axis-aligned rectangle in logical/physical pixel coordinates,
mirroring `vizia` `BoundingBox { x, y, w, h }` with `f32` modelled by `ℚ`. -/
structure Box where
  x : ℚ
  y : ℚ
  w : ℚ
  h : ℚ
deriving DecidableEq, Repr

/-- Modelled from the spec: `enforce_text_bounds` lives in `crate::text`,
which is not part of the provided sources.  Per §4.2 it clamps the offset
so the content's rendered extent never leaves a gap inside the container on
the side where content is shorter than the container, and never allows
scrolling past either end when content is longer; modelled axis-wise as a
clamp of the offset between the two alignment offsets of content and
container edges. -/
def enforce_text_bounds (content container : Box) (t : ℚ × ℚ) : ℚ × ℚ :=
  let xlo := min (container.x - content.x)
      (container.x + container.w - content.x - content.w)
  let xhi := max (container.x - content.x)
      (container.x + container.w - content.x - content.w)
  let ylo := min (container.y - content.y)
      (container.y + container.h - content.y - content.h)
  let yhi := max (container.y - content.y)
      (container.y + container.h - content.y - content.h)
  (max xlo (min xhi t.1), max ylo (min yhi t.2))

/-- Modelled from the spec: `ensure_visible` lives in `crate::text`, which
is not part of the provided sources.  Per §4.2, if the target box lies
outside the container after applying the offset, the offset is shifted by
the minimal amount needed to bring the full box inside (the 1-pixel inset
is applied by the caller `set_caret`, which widens the container before the
call). -/
def ensure_visible (target container : Box) (t : ℚ × ℚ) : ℚ × ℚ :=
  ( if target.x + t.1 < container.x then container.x - target.x
    else if target.x + target.w + t.1 > container.x + container.w then
      container.x + container.w - target.x - target.w
    else t.1
  , if target.y + t.2 < container.y then container.y - target.y
    else if target.y + target.h + t.2 > container.y + container.h then
      container.y + container.h - target.y - target.h
    else t.2 )

/-- Modelled from the spec: the `Direction` enum of `crate::text` (not in
the provided sources): Upstream/Downstream are logical buffer-order
directions, Left/Right are visual directions. -/
inductive Direction where
  | Upstream : Direction
  | Downstream : Direction
  | Left : Direction
  | Right : Direction
deriving DecidableEq, Repr

/-- Modelled from the spec: the `Movement` enum of `crate::text` (not in
the provided sources): grapheme/word/line/page/body steps plus
line-start/line-end. -/
inductive Movement where
  | Grapheme : Direction → Movement
  | Word : Direction → Movement
  | Line : Direction → Movement
  | Page : Direction → Movement
  | Body : Direction → Movement
  | LineStart : Movement
  | LineEnd : Movement
deriving DecidableEq, Repr

/-- The `cosmic_text::Action` variants issued by the textbox. -/
inductive EAction where
  | Previous : EAction
  | Next : EAction
  | Left : EAction
  | Right : EAction
  | PreviousWord : EAction
  | NextWord : EAction
  | LeftWord : EAction
  | RightWord : EAction
  | Up : EAction
  | Down : EAction
  | Home : EAction
  | End : EAction
  | Vertical : Int → EAction
  | BufferStart : EAction
  | BufferEnd : EAction
  | ParagraphStart : EAction
  | ParagraphEnd : EAction
  | Click : Int → Int → EAction
  | Drag : Int → Int → EAction
deriving DecidableEq, Repr

/-- Rust `as i32` truncation (toward zero) of an `f32`, modelled on `ℚ`. -/
def truncQ (q : ℚ) : Int :=
  Int.tdiv q.num (q.den : Int)

/-- The external context a `TextboxData` handler runs against: the DPI
scale factor, the cached bounds of the content entity and of its parent
container, the caret geometry produced by `layout_caret`, the disabled
flag, the scroll sensitivity constant, the clipboard capability (`set_text`
success flag and `get_text` result), and the behaviour of the external
cosmic-text editor (selected-text extraction, cursor-only action semantics,
click/drag hit-testing, string insertion, and selection deletion). -/
structure Env where
  scale : ℚ
  bounds : Box
  parentBounds : Box
  caretBox : Option Box
  disabled : Bool
  scrollSensitivity : ℚ
  setClipboardOk : Bool
  getClipboard : Option String
  selectedText : EditorState → String
  moveTo : EAction → EditorState → Cursor
  clickAt : Int → Int → EditorState → EditorState
  dragAt : Int → Int → EditorState → EditorState
  insertString : String → EditorState → EditorState
  deleteSelected : EditorState → EditorState

/-- The cursor at the very end of the buffer, as produced by
`Action::BufferEnd` (last line index, byte length of the last line). -/
def lastLineCursor (ed : EditorState) : Cursor :=
  { line := ed.lines.length - 1,
    index := (ed.lines.getLast?.map String.utf8ByteSize).getD 0 }

/-- `Editor::action`: `BufferStart`/`BufferEnd` move the cursor to the
buffer extremes, `Click`/`Drag` run the external hit-test, and every other
action issued by the textbox moves only the cursor (selection and content
untouched), with the new cursor supplied by the external engine. -/
def applyAction (env : Env) : EAction → EditorState → EditorState
  | EAction.BufferStart, ed => { ed with cursor := { line := 0, index := 0 } }
  | EAction.BufferEnd, ed => { ed with cursor := lastLineCursor ed }
  | EAction.Click x y, ed => env.clickAt x y ed
  | EAction.Drag x y, ed => env.dragAt x y ed
  | a, ed => { ed with cursor := env.moveTo a ed }

/-- The movement-to-action translation table inside
`TextboxData::move_cursor`; movements with no native action (the `_ =>
return` arm) map to `none`.  `Page` scales to the container height cast to
`i32`. -/
def translateMovement (env : Env) : Movement → Option EAction
  | Movement.Grapheme Direction.Upstream => some EAction.Previous
  | Movement.Grapheme Direction.Downstream => some EAction.Next
  | Movement.Grapheme Direction.Left => some EAction.Left
  | Movement.Grapheme Direction.Right => some EAction.Right
  | Movement.Word Direction.Upstream => some EAction.PreviousWord
  | Movement.Word Direction.Downstream => some EAction.NextWord
  | Movement.Word Direction.Left => some EAction.LeftWord
  | Movement.Word Direction.Right => some EAction.RightWord
  | Movement.Line Direction.Upstream => some EAction.Up
  | Movement.Line Direction.Downstream => some EAction.Down
  | Movement.LineStart => some EAction.Home
  | Movement.LineEnd => some EAction.End
  | Movement.Page d =>
      some (EAction.Vertical
        ((if d = Direction.Upstream then -1 else 1) * truncQ env.parentBounds.h))
  | Movement.Body Direction.Upstream => some EAction.BufferStart
  | Movement.Body Direction.Downstream => some EAction.BufferEnd
  | _ => none

/-- `TextboxData::move_cursor`: install/clear the selection anchor
according to the `selection` flag, then issue the buffer's native action
for the movement (if any). -/
def move_cursor (env : Env) (mv : Movement) (selection : Bool)
    (ed : EditorState) : EditorState :=
  let ed :=
    if selection then
      if ed.select.isNone then { ed with select := some ed.cursor } else ed
    else { ed with select := none }
  match translateMovement env mv with
  | some a => applyAction env a ed
  | none => ed

/-- `Editor::delete_selection`: reports whether a selection existed; when
it does, the external engine removes the selected range. -/
def delete_selection (env : Env) (ed : EditorState) : Bool × EditorState :=
  match ed.select with
  | none => (false, ed)
  | some _ => (true, env.deleteSelected ed)

/-- `TextboxData::delete_text`: if no selection was deleted, extend a
selection by the movement and delete that. -/
def delete_text (env : Env) (mv : Movement) (ed : EditorState) : EditorState :=
  let r := delete_selection env ed
  if !r.1 then
    let ed2 := move_cursor env mv true r.2
    (delete_selection env ed2).2
  else r.2

/-- `TextboxData::select_all`: jump to buffer start, anchor the selection
there, then jump to buffer end. -/
def select_all (env : Env) (ed : EditorState) : EditorState :=
  let ed := applyAction env EAction.BufferStart ed
  let ed := { ed with select := some ed.cursor }
  applyAction env EAction.BufferEnd ed

/-- `TextboxData::select_word`: step to the previous word boundary, anchor,
then step to the next word boundary. -/
def select_word (env : Env) (ed : EditorState) : EditorState :=
  let ed := applyAction env EAction.PreviousWord ed
  let ed := { ed with select := some ed.cursor }
  applyAction env EAction.NextWord ed

/-- `TextboxData::select_paragraph`. -/
def select_paragraph (env : Env) (ed : EditorState) : EditorState :=
  let ed := applyAction env EAction.ParagraphStart ed
  let ed := { ed with select := some ed.cursor }
  applyAction env EAction.ParagraphEnd ed

/-- `TextboxData::deselect`: `set_select_opt(None)`. -/
def deselect (ed : EditorState) : EditorState :=
  { ed with select := none }

/-- `Editor::copy_selection` as used by `clone_selected`: `None` when no
selection is active, otherwise the selected text as computed by the
external engine. -/
def clone_selected (env : Env) (ed : EditorState) : Option String :=
  ed.select.map (fun _ => env.selectedText ed)

/-- The separator used by `clone_text` to join the buffer lines. -/
def newlineSep : String := "\n"

/-- `TextboxData::clone_text`: join all hard lines with a newline. -/
def clone_text (ed : EditorState) : String :=
  String.intercalate newlineSep ed.lines

/-- `TextboxKind`. -/
inductive TextboxKind where
  | SingleLine : TextboxKind
  | MultiLineUnwrapped : TextboxKind
  | MultiLineWrapped : TextboxKind
deriving DecidableEq, Repr

/-- The `TextboxData` model state.  The opaque `on_edit`/`on_submit`
callback values are represented by tokens of the type parameters `E`/`S`
(an `Option` slot each, as in the source); `content_entity` is abstracted
to the flag `contentInit` (`Entity::null()` = `false`); the state of the
externally owned editor/buffer is carried alongside so handlers can be
modelled as pure state transformers. -/
structure TextboxState (E S : Type) where
  edit : Bool
  transform : ℚ × ℚ
  contentInit : Bool
  kind : TextboxKind
  onEdit : Option E
  onSubmit : Option S
  editor : EditorState
deriving DecidableEq

/-- `TextboxData::new` (paired with an externally supplied buffer). -/
def freshTextboxData (ed : EditorState) : TextboxState E S :=
  { edit := false, transform := (0, 0), contentInit := false,
    kind := TextboxKind.SingleLine, onEdit := none, onSubmit := none,
    editor := ed }

/-- `TextboxData::set_caret`: early-return when the content entity is
null; otherwise scale the stored transform to physical space, apply
`enforce_text_bounds`, then — when caret geometry is available — apply
`ensure_visible` against the container widened by 1 physical pixel on the
left and right, and finally store the rounded offset back in logical
space. -/
def set_caret (env : Env) (st : TextboxState E S) : TextboxState E S :=
  if st.contentInit then
    let scale := env.scale
    let t0 := (st.transform.1 * scale, st.transform.2 * scale)
    let t1 := enforce_text_bounds env.bounds env.parentBounds t0
    let t2 :=
      match env.caretBox with
      | some cb =>
          ensure_visible cb
            { env.parentBounds with x := env.parentBounds.x - 1,
                                    w := env.parentBounds.w + 2 } t1
      | none => t1
    { st with transform := (((round t2.1 : ℤ) : ℚ) / scale,
                            ((round t2.2 : ℤ) : ℚ) / scale) }
  else st

/-- `TextboxData::insert_text` (buffer mutation only; the layout-dirty mark
has no observable effect in this model). -/
def insert_text (env : Env) (st : TextboxState E S) (text : String) :
    TextboxState E S :=
  { st with editor := env.insertString text st.editor }

/-- `TextboxData::reset_text`: `buffer.set_text` replaces the buffer lines
with the hard lines of the new text. -/
def reset_text (st : TextboxState E S) (text : String) : TextboxState E S :=
  { st with editor := { st.editor with lines := hardLines text } }

/-- `TextboxData::coordinates_global_to_text`. -/
def coordinates_global_to_text (env : Env) (st : TextboxState E S)
    (x y : ℚ) : ℚ × ℚ :=
  (x - st.transform.1 * env.scale - env.parentBounds.x,
   y - st.transform.2 * env.scale - env.parentBounds.y)

/-- `TextboxData::hit`: translate to text space and issue `Action::Click`. -/
def hit (env : Env) (st : TextboxState E S) (x y : ℚ) : EditorState :=
  let p := coordinates_global_to_text env st x y
  applyAction env (EAction.Click (truncQ p.1) (truncQ p.2)) st.editor

/-- `TextboxData::drag`: translate to text space and issue `Action::Drag`. -/
def drag (env : Env) (st : TextboxState E S) (x y : ℚ) : EditorState :=
  let p := coordinates_global_to_text env st x y
  applyAction env (EAction.Drag (truncQ p.1) (truncQ p.2)) st.editor

/-- `TextboxData::scroll`: add the sensitivity-scaled physical delta to the
scaled transform, clamp via `enforce_text_bounds`, and store the unscaled
result (no rounding here, per the source). -/
def scroll (env : Env) (st : TextboxState E S) (x y : ℚ) : TextboxState E S :=
  let scale := env.scale
  let tx := st.transform.1 * scale + x * env.scrollSensitivity
  let ty := st.transform.2 * scale + y * env.scrollSensitivity
  let t := enforce_text_bounds env.bounds env.parentBounds (tx, ty)
  { st with transform := (t.1 / scale, t.2 / scale) }

/-- The `TextEvent` vocabulary of the textbox (the `InitContent` entity
argument is abstracted away together with `content_entity`). -/
inductive TextEvent (E S : Type) where
  | InsertText : String → TextEvent E S
  | ResetText : String → TextEvent E S
  | DeleteText : Movement → TextEvent E S
  | MoveCursor : Movement → Bool → TextEvent E S
  | SelectAll : TextEvent E S
  | SelectWord : TextEvent E S
  | SelectParagraph : TextEvent E S
  | StartEdit : TextEvent E S
  | EndEdit : TextEvent E S
  | Submit : Bool → TextEvent E S
  | Hit : ℚ → ℚ → TextEvent E S
  | Drag : ℚ → ℚ → TextEvent E S
  | Scroll : ℚ → ℚ → TextEvent E S
  | Copy : TextEvent E S
  | Paste : TextEvent E S
  | Cut : TextEvent E S
  | SetOnEdit : Option E → TextEvent E S
  | SetOnSubmit : Option S → TextEvent E S
  | InitContent : TextboxKind → TextEvent E S
  | GeometryChanged : TextEvent E S
deriving DecidableEq

/-- Which callback slot an invocation came from. -/
inductive CbKind where
  | edit : CbKind
  | submit : CbKind
deriving DecidableEq, Repr

/-- A record of one callback invocation performed while handling an event:
which slot was invoked, the `TextboxData` state visible at the moment of
the call (after the slot was `take`n), the text passed, and the finality
flag for submit callbacks. -/
structure Invocation (E S : Type) where
  kind : CbKind
  callState : TextboxState E S
  text : String
  flag : Option Bool
deriving DecidableEq

/-- Result of one dispatch of `TextboxData::event`: the final state, the
callback invocations performed (in order), and the events emitted to the
queue via `cx.emit`. -/
structure StepOut (E S : Type) where
  state : TextboxState E S
  invs : List (Invocation E S)
  emitted : List (TextEvent E S)
deriving DecidableEq

/-- The panic message of the `.expect` calls on `cx.set_clipboard` in the
`Copy` and `Cut` arms. -/
def clipboardPanicMsg : String := "Failed to add text to clipboard"

/-- One dispatch of `Model::event` for `TextboxData`, transcribed arm by
arm from the source.  `Except.error` models a handler panic (the
`.expect` on a failed clipboard write); callbacks are modelled as opaque
tokens whose invocations are recorded in the output (a callback receives
only the event context in the source and cannot mutate `TextboxData`
synchronously — events it emits are dispatched later from the queue). -/
def step (env : Env) (st : TextboxState E S) :
    TextEvent E S → Except String (StepOut E S)
  | TextEvent.InsertText text =>
      if st.edit then
        let st1 := set_caret env (insert_text env st text)
        match st1.onEdit with
        | some cb =>
            let taken := { st1 with onEdit := none }
            Except.ok { state := { taken with onEdit := some cb },
                        invs := [{ kind := CbKind.edit, callState := taken,
                                   text := clone_text taken.editor, flag := none }],
                        emitted := [] }
        | none => Except.ok { state := st1, invs := [], emitted := [] }
      else Except.ok { state := st, invs := [], emitted := [] }
  | TextEvent.ResetText text =>
      Except.ok { state := scroll env (reset_text st text) 0 0,
                  invs := [], emitted := [] }
  | TextEvent.DeleteText mv =>
      if st.edit then
        let st1 := set_caret env { st with editor := delete_text env mv st.editor }
        match st1.onEdit with
        | some cb =>
            let taken := { st1 with onEdit := none }
            Except.ok { state := { taken with onEdit := some cb },
                        invs := [{ kind := CbKind.edit, callState := taken,
                                   text := clone_text taken.editor, flag := none }],
                        emitted := [] }
        | none => Except.ok { state := st1, invs := [], emitted := [] }
      else Except.ok { state := st, invs := [], emitted := [] }
  | TextEvent.MoveCursor mv sel =>
      if st.edit then
        Except.ok { state := set_caret env
                      { st with editor := move_cursor env mv sel st.editor },
                    invs := [], emitted := [] }
      else Except.ok { state := st, invs := [], emitted := [] }
  | TextEvent.StartEdit =>
      if !env.disabled && !st.edit then
        Except.ok { state := { st with edit := true }, invs := [], emitted := [] }
      else Except.ok { state := st, invs := [], emitted := [] }
  | TextEvent.EndEdit =>
      Except.ok { state := { st with editor := deselect st.editor, edit := false },
                  invs := [], emitted := [] }
  | TextEvent.Submit reason =>
      match st.onSubmit with
      | some cb =>
          let taken := { st with onSubmit := none }
          Except.ok { state := { taken with onSubmit := some cb },
                      invs := [{ kind := CbKind.submit, callState := taken,
                                 text := clone_text taken.editor,
                                 flag := some reason }],
                      emitted := [TextEvent.EndEdit] }
      | none =>
          Except.ok { state := st, invs := [], emitted := [TextEvent.EndEdit] }
  | TextEvent.SelectAll =>
      Except.ok { state := set_caret env { st with editor := select_all env st.editor },
                  invs := [], emitted := [] }
  | TextEvent.SelectWord =>
      Except.ok { state := set_caret env { st with editor := select_word env st.editor },
                  invs := [], emitted := [] }
  | TextEvent.SelectParagraph =>
      Except.ok { state := set_caret env
                    { st with editor := select_paragraph env st.editor },
                  invs := [], emitted := [] }
  | TextEvent.Hit x y =>
      Except.ok { state := set_caret env { st with editor := hit env st x y },
                  invs := [], emitted := [] }
  | TextEvent.Drag x y =>
      Except.ok { state := set_caret env { st with editor := drag env st x y },
                  invs := [], emitted := [] }
  | TextEvent.Scroll x y =>
      Except.ok { state := scroll env st x y, invs := [], emitted := [] }
  | TextEvent.Copy =>
      if st.edit then
        match clone_selected env st.editor with
        | some selectedText =>
            if selectedText ≠ "" then
              if env.setClipboardOk then
                Except.ok { state := st, invs := [], emitted := [] }
              else Except.error clipboardPanicMsg
            else Except.ok { state := st, invs := [], emitted := [] }
        | none => Except.ok { state := st, invs := [], emitted := [] }
      else Except.ok { state := st, invs := [], emitted := [] }
  | TextEvent.Paste =>
      if st.edit then
        match env.getClipboard with
        | some text =>
            Except.ok { state := st, invs := [],
                        emitted := [TextEvent.InsertText text] }
        | none => Except.ok { state := st, invs := [], emitted := [] }
      else Except.ok { state := st, invs := [], emitted := [] }
  | TextEvent.Cut =>
      if st.edit then
        match clone_selected env st.editor with
        | some selectedText =>
            if selectedText ≠ "" then
              if env.setClipboardOk then
                let mvUp := Movement.Grapheme Direction.Upstream
                let st1 := { st with editor := delete_text env mvUp st.editor }
                match st1.onEdit with
                | some cb =>
                    let taken := { st1 with onEdit := none }
                    Except.ok { state := { taken with onEdit := some cb },
                                invs := [{ kind := CbKind.edit, callState := taken,
                                           text := clone_text taken.editor,
                                           flag := none }],
                                emitted := [] }
                | none => Except.ok { state := st1, invs := [], emitted := [] }
              else Except.error clipboardPanicMsg
            else Except.ok { state := st, invs := [], emitted := [] }
        | none => Except.ok { state := st, invs := [], emitted := [] }
      else Except.ok { state := st, invs := [], emitted := [] }
  | TextEvent.SetOnEdit f =>
      Except.ok { state := { st with onEdit := f }, invs := [], emitted := [] }
  | TextEvent.SetOnSubmit f =>
      Except.ok { state := { st with onSubmit := f }, invs := [], emitted := [] }
  | TextEvent.InitContent k =>
      Except.ok { state := { st with contentInit := true, kind := k },
                  invs := [], emitted := [] }
  | TextEvent.GeometryChanged =>
      Except.ok { state := set_caret env st, invs := [], emitted := [] }

/-- Dispatch a sequence of events (each with the external context current
at its dispatch), stopping at the first handler panic. -/
def runEvents : List (Env × TextEvent E S) → TextboxState E S →
    Except String (TextboxState E S)
  | [], st => Except.ok st
  | (env, ev) :: rest, st =>
      match step env st ev with
      | Except.ok out => runEvents rest out.state
      | Except.error e => Except.error e

/-- The spec invariant of C2 as a boolean: while not editing, the buffer
holds no active selection. -/
def selInv (st : TextboxState E S) : Bool :=
  st.edit || st.editor.select.isNone

/-- The five event arms that the source dispatches without an `edit`
guard although they can install a selection. -/
def unguardedSelEvent : TextEvent E S → Bool
  | TextEvent.SelectAll => true
  | TextEvent.SelectWord => true
  | TextEvent.SelectParagraph => true
  | TextEvent.Hit _ _ => true
  | TextEvent.Drag _ _ => true
  | _ => false

/-- A run is guard-respecting when every selection-installing event of the
sequence is dispatched while `edit == true`. -/
def safeRun : List (Env × TextEvent E S) → TextboxState E S → Bool
  | [], _ => true
  | (env, ev) :: rest, st =>
      (!unguardedSelEvent ev || st.edit) &&
      (match step env st ev with
       | Except.ok out => safeRun rest out.state
       | Except.error _ => true)

/-- The C2 invariant holds of the final state of a non-panicking run. -/
@[reducible] def runSelInv (r : Except String (TextboxState E S)) : Prop :=
  ∀ st', r = Except.ok st' → selInv st' = true

@[simp] theorem set_caret_edit (env : Env) (st : TextboxState E S) :
    (set_caret env st).edit = st.edit := by
  simp only [set_caret]; split <;> rfl

@[simp] theorem set_caret_editor (env : Env) (st : TextboxState E S) :
    (set_caret env st).editor = st.editor := by
  simp only [set_caret]; split <;> rfl

@[simp] theorem set_caret_onEdit (env : Env) (st : TextboxState E S) :
    (set_caret env st).onEdit = st.onEdit := by
  simp only [set_caret]; split <;> rfl

@[simp] theorem set_caret_onSubmit (env : Env) (st : TextboxState E S) :
    (set_caret env st).onSubmit = st.onSubmit := by
  simp only [set_caret]; split <;> rfl

@[simp] theorem scroll_edit (env : Env) (st : TextboxState E S) (x y : ℚ) :
    (scroll env st x y).edit = st.edit := rfl

@[simp] theorem scroll_editor (env : Env) (st : TextboxState E S) (x y : ℚ) :
    (scroll env st x y).editor = st.editor := rfl

@[simp] theorem scroll_onEdit (env : Env) (st : TextboxState E S) (x y : ℚ) :
    (scroll env st x y).onEdit = st.onEdit := rfl

@[simp] theorem scroll_onSubmit (env : Env) (st : TextboxState E S) (x y : ℚ) :
    (scroll env st x y).onSubmit = st.onSubmit := rfl

/-- A concrete environment whose external collaborators act trivially,
used to evaluate the model on concrete inputs. -/
def envTriv : Env :=
  { scale := 1,
    bounds := { x := 0, y := 0, w := 0, h := 0 },
    parentBounds := { x := 0, y := 0, w := 0, h := 0 },
    caretBox := none, disabled := false, scrollSensitivity := 20,
    setClipboardOk := true, getClipboard := none,
    selectedText := fun _ => newlineSep,
    moveTo := fun _ ed => ed.cursor,
    clickAt := fun _ _ ed => ed,
    dragAt := fun _ _ ed => ed,
    insertString := fun _ ed => ed,
    deleteSelected := fun ed => ed }

/-- The empty string (named so concrete theorems stay free of literals). -/
def emptyStr : String := ""

/-- C7: dispatching `MoveCursor`, `InsertText` or `DeleteText` while
`edit == false` is a complete no-op: the handler returns the state (and in
particular the buffer's cursor, selection and content) unchanged, performs
no callback invocation and emits nothing. -/
theorem c7_not_editing_noop (env : Env) (st : TextboxState E S)
    (mv : Movement) (sel : Bool) (text : String) (h : st.edit = false) :
    step env st (TextEvent.MoveCursor mv sel) =
      Except.ok { state := st, invs := [], emitted := [] } ∧
    step env st (TextEvent.InsertText text) =
      Except.ok { state := st, invs := [], emitted := [] } ∧
    step env st (TextEvent.DeleteText mv) =
      Except.ok { state := st, invs := [], emitted := [] } := by
  refine ⟨?_, ?_, ?_⟩ <;> simp [step, h]

/-- A concrete non-editing textbox state over the buffer `ab`. -/
def stNoEdit : TextboxState Unit Unit := freshTextboxData edPlain

/-- C7 witness: the no-op equations hold at a concrete non-editing state. -/
theorem c7_witness :
    step envTriv stNoEdit (TextEvent.MoveCursor Movement.LineStart false) =
      Except.ok { state := stNoEdit, invs := [], emitted := [] } ∧
    step envTriv stNoEdit (TextEvent.InsertText emptyStr) =
      Except.ok { state := stNoEdit, invs := [], emitted := [] } ∧
    step envTriv stNoEdit (TextEvent.DeleteText Movement.LineStart) =
      Except.ok { state := stNoEdit, invs := [], emitted := [] } :=
  c7_not_editing_noop envTriv stNoEdit Movement.LineStart false emptyStr rfl

/-- C10: `Submit(is_final)` has no editing guard: for EVERY state —
including `edit == false` — it invokes the registered submit callback with
the full current text and the finality flag (with the slot taken for the
duration of the call and restored after), and then emits `EndEdit`. -/
theorem c10_submit_unguarded (env : Env) (st : TextboxState E S) (reason : Bool) :
    step env st (TextEvent.Submit reason) =
      Except.ok { state := st,
                  invs := match st.onSubmit with
                    | some _ =>
                        [{ kind := CbKind.submit,
                           callState := { st with onSubmit := none },
                           text := clone_text st.editor,
                           flag := some reason }]
                    | none => [],
                  emitted := [TextEvent.EndEdit] } := by
  obtain ⟨e, t, c, k, oE, oS, ed⟩ := st
  cases oS with
  | none => simp [step]
  | some cb => simp [step]

/-- The buffer `ab` with an active full selection, in editing state, with a
submit callback installed — the concrete state used by several witnesses. -/
def stEditing : TextboxState Unit Unit :=
  { stNoEdit with edit := true, onSubmit := some () }

/-- The environment in which the clipboard `set_text` capability fails and
the editor reports the selected text `ab`. -/
def envCutFail : Env :=
  { envTriv with setClipboardOk := false, selectedText := fun _ => strAB }

/-- C3: a failed clipboard write during `Cut` (editing, non-empty
selection) is NOT surfaced as a recoverable result: the handler aborts via
the `.expect` panic.  The environment reports `set_text` failure; the
selected text is non-empty; the dispatch ends in the panic outcome instead
of any `Except.ok` state. -/
theorem c3_cut_clipboard_failure_aborts :
    step envCutFail stEditing TextEvent.Cut = Except.error clipboardPanicMsg := by
  rfl

/-- A fresh editor over the buffer `ab`: cursor at the origin, no
selection. -/
def edFresh : EditorState :=
  { lines := ["ab"], cursor := { line := 0, index := 0 }, select := none }

/-- The event sequence of the C2 counterexample: initialize the content
binding, then dispatch `SelectAll` while `edit == false`. -/
def evsC2 : List (Env × TextEvent Unit Unit) :=
  [(envTriv, TextEvent.InitContent TextboxKind.SingleLine),
   (envTriv, TextEvent.SelectAll)]

/-- C2: counterexample to the claim as stated.  Starting from a fresh
session over the buffer `ab` (no selection, `edit == false`), dispatching
`SelectAll` — whose arm has no `edit` guard — leaves the session with
`edit == false` AND an installed selection anchored at the buffer start. -/
theorem c2_counterexample :
    (runEvents evsC2 (freshTextboxData edFresh)).toOption.map
        (fun st => (st.edit, st.editor.select)) =
      some (false, some { line := 0, index := 0 }) := by
  decide

/-- Any single guard-respecting dispatch preserves the invariant `edit ==
false → no active selection`. -/
theorem selInv_step (env : Env) (st : TextboxState E S) (ev : TextEvent E S)
    (hinv : selInv st = true)
    (hsafe : unguardedSelEvent ev = true → st.edit = true)
    (out : StepOut E S) (hs : step env st ev = Except.ok out) :
    selInv out.state = true := by
  cases ev with
  | InsertText text =>
      by_cases he : st.edit
      · simp only [step, he, if_true] at hs
        split at hs <;>
          (simp only [Except.ok.injEq] at hs; subst hs; simp [selInv, he, insert_text])
      · have he' : st.edit = false := by simpa using he
        have hstep2 : step env st (TextEvent.InsertText text) =
            Except.ok { state := st, invs := [], emitted := [] } := by
          simp [step, he']
        rw [hstep2] at hs
        injection hs with h
        subst h
        exact hinv
  | ResetText text =>
      simp only [step, Except.ok.injEq] at hs
      subst hs
      simpa [selInv, reset_text] using hinv
  | DeleteText mv =>
      by_cases he : st.edit
      · simp only [step, he, if_true] at hs
        split at hs <;>
          (simp only [Except.ok.injEq] at hs; subst hs; simp [selInv, he])
      · have he' : st.edit = false := by simpa using he
        have hstep2 : step env st (TextEvent.DeleteText mv) =
            Except.ok { state := st, invs := [], emitted := [] } := by
          simp [step, he']
        rw [hstep2] at hs
        injection hs with h
        subst h
        exact hinv
  | MoveCursor mv sel =>
      by_cases he : st.edit
      · simp only [step, he, if_true, Except.ok.injEq] at hs
        subst hs; simp [selInv, he]
      · have he' : st.edit = false := by simpa using he
        have hstep2 : step env st (TextEvent.MoveCursor mv sel) =
            Except.ok { state := st, invs := [], emitted := [] } := by
          simp [step, he']
        rw [hstep2] at hs
        injection hs with h
        subst h
        exact hinv
  | SelectAll =>
      have he : st.edit = true := hsafe (by simp [unguardedSelEvent])
      simp only [step, Except.ok.injEq] at hs
      subst hs; simp [selInv, he]
  | SelectWord =>
      have he : st.edit = true := hsafe (by simp [unguardedSelEvent])
      simp only [step, Except.ok.injEq] at hs
      subst hs; simp [selInv, he]
  | SelectParagraph =>
      have he : st.edit = true := hsafe (by simp [unguardedSelEvent])
      simp only [step, Except.ok.injEq] at hs
      subst hs; simp [selInv, he]
  | StartEdit =>
      simp only [step] at hs
      split at hs <;>
        (simp only [Except.ok.injEq] at hs; subst hs)
      · simp [selInv]
      · exact hinv
  | EndEdit =>
      simp only [step, Except.ok.injEq] at hs
      subst hs; simp [selInv, deselect]
  | Submit reason =>
      simp only [step] at hs
      split at hs <;>
        (simp only [Except.ok.injEq] at hs; subst hs)
      · simpa [selInv] using hinv
      · exact hinv
  | Hit x y =>
      have he : st.edit = true := hsafe (by simp [unguardedSelEvent])
      simp only [step, Except.ok.injEq] at hs
      subst hs; simp [selInv, he]
  | Drag x y =>
      have he : st.edit = true := hsafe (by simp [unguardedSelEvent])
      simp only [step, Except.ok.injEq] at hs
      subst hs; simp [selInv, he]
  | Scroll x y =>
      simp only [step, Except.ok.injEq] at hs
      subst hs; simpa [selInv] using hinv
  | Copy =>
      by_cases he : st.edit
      · simp only [step, he, if_true] at hs
        repeat' split at hs
        all_goals
          first
          | exact Except.noConfusion hs
          | (simp only [Except.ok.injEq] at hs; subst hs; exact hinv)
      · have he' : st.edit = false := by simpa using he
        have hstep2 : step env st TextEvent.Copy =
            Except.ok { state := st, invs := [], emitted := [] } := by
          simp [step, he']
        rw [hstep2] at hs
        injection hs with h
        subst h
        exact hinv
  | Paste =>
      by_cases he : st.edit
      · simp only [step, he, if_true] at hs
        split at hs <;>
          (simp only [Except.ok.injEq] at hs; subst hs; exact hinv)
      · have he' : st.edit = false := by simpa using he
        have hstep2 : step env st TextEvent.Paste =
            Except.ok { state := st, invs := [], emitted := [] } := by
          simp [step, he']
        rw [hstep2] at hs
        injection hs with h
        subst h
        exact hinv
  | Cut =>
      by_cases he : st.edit
      · simp only [step, he, if_true] at hs
        repeat' split at hs
        all_goals
          first
          | exact Except.noConfusion hs
          | (simp only [Except.ok.injEq] at hs; subst hs; simp [selInv, he])
      · have he' : st.edit = false := by simpa using he
        have hstep2 : step env st TextEvent.Cut =
            Except.ok { state := st, invs := [], emitted := [] } := by
          simp [step, he']
        rw [hstep2] at hs
        injection hs with h
        subst h
        exact hinv
  | SetOnEdit f =>
      simp only [step, Except.ok.injEq] at hs
      subst hs; simpa [selInv] using hinv
  | SetOnSubmit f =>
      simp only [step, Except.ok.injEq] at hs
      subst hs; simpa [selInv] using hinv
  | InitContent k =>
      simp only [step, Except.ok.injEq] at hs
      subst hs; simpa [selInv] using hinv
  | GeometryChanged =>
      simp only [step, Except.ok.injEq] at hs
      subst hs; simpa [selInv] using hinv

/-- C2 (amended): the invariant "while `edit == false` the buffer holds no
active selection" is preserved by every sequence of dispatches in which
each `SelectAll`, `SelectWord`, `SelectParagraph`, `Hit` and `Drag` event
arrives while `edit == true`.  As stated the claim is false, because those
five arms carry no `edit` guard in the source and install selections even
while not editing (see the counterexample). -/
theorem c2_invariant_amended (l : List (Env × TextEvent E S))
    (st : TextboxState E S) (hinv : selInv st = true)
    (hsafe : safeRun l st = true) :
    runSelInv (runEvents l st) := by
  induction l generalizing st with
  | nil =>
      intro st' h
      simp only [runEvents, Except.ok.injEq] at h
      subst h; exact hinv
  | cons p rest ih =>
      obtain ⟨env, ev⟩ := p
      intro st' hrun
      simp only [safeRun, Bool.and_eq_true] at hsafe
      obtain ⟨h1, h2⟩ := hsafe
      simp only [runEvents] at hrun
      cases hstep : step env st ev with
      | error e =>
          rw [hstep] at hrun
          exact Except.noConfusion hrun
      | ok out =>
          rw [hstep] at hrun h2
          have hinv' := selInv_step env st ev hinv
            (fun hu => by simpa [hu] using h1) out hstep
          exact ih out.state hinv' h2 st' hrun

/-- The guard-respecting event sequence of the C2 witness: enter edit mode
before selecting, then leave it. -/
def evsC2W : List (Env × TextEvent Unit Unit) :=
  [(envTriv, TextEvent.InitContent TextboxKind.SingleLine),
   (envTriv, TextEvent.StartEdit),
   (envTriv, TextEvent.SelectAll),
   (envTriv, TextEvent.EndEdit)]

/-- C2 witness: the amended invariant theorem applied to a concrete
guard-respecting run from a fresh session. -/
theorem c2_witness : runSelInv (runEvents evsC2W (freshTextboxData edFresh)) :=
  c2_invariant_amended evsC2W (freshTextboxData edFresh) (by decide) (by decide)

/-- C8: `move_cursor(movement, extend)` handles the selection exactly as
specified, for every movement and buffer state: (i) with `extend = false`
any active selection is cleared before the move and stays cleared (none of
the translated buffer actions touches the selection); (ii) with `extend =
true` and no active selection, an anchor is installed at the current cursor
position before the move and survives it; (iii) with `extend = true` and an
active selection the anchor is kept; and (iv) the result is exactly the
buffer's native action for the movement applied to the selection-prepared
state (a no-op action for the untranslatable movements). -/
theorem c8_move_cursor_selection (env : Env) (mv : Movement) (sel : Bool)
    (ed : EditorState) (c : Cursor) :
    (move_cursor env mv false ed).select = none ∧
    (move_cursor env mv true { ed with select := none }).select = some ed.cursor ∧
    (move_cursor env mv true { ed with select := some c }).select = some c ∧
    move_cursor env mv sel ed =
      (fun ed1 =>
        match translateMovement env mv with
        | some a => applyAction env a ed1
        | none => ed1)
      (if sel then
        if ed.select.isNone then { ed with select := some ed.cursor } else ed
       else { ed with select := none }) := by
  refine ⟨?_, ?_, ?_, rfl⟩ <;>
  · cases mv with
    | Grapheme d =>
        cases d <;> simp [move_cursor, translateMovement, applyAction]
    | Word d =>
        cases d <;> simp [move_cursor, translateMovement, applyAction]
    | Line d =>
        cases d <;> simp [move_cursor, translateMovement, applyAction]
    | Page d =>
        cases d <;> simp [move_cursor, translateMovement, applyAction]
    | Body d =>
        cases d <;> simp [move_cursor, translateMovement, applyAction]
    | LineStart => simp [move_cursor, translateMovement, applyAction]
    | LineEnd => simp [move_cursor, translateMovement, applyAction]

/-- A callback invocation can only be produced by a dispatch whose source
state holds a callback in the corresponding slot. -/
theorem step_inv_source (env : Env) (st : TextboxState E S) (ev : TextEvent E S)
    (out : StepOut E S) (hs : step env st ev = Except.ok out) :
    ∀ inv ∈ out.invs,
      (inv.kind = CbKind.edit → st.onEdit.isSome = true) ∧
      (inv.kind = CbKind.submit → st.onSubmit.isSome = true) := by
  cases ev <;>
    (simp only [step] at hs
     repeat' split at hs
     all_goals
       first
       | exact Except.noConfusion hs
       | (simp only [Except.ok.injEq] at hs
          subst hs
          intro inv hmem
          first
          | (simp at hmem
             done)
          | (simp only [List.mem_singleton] at hmem
             subst hmem
             rename_i heq
             refine ⟨fun hk => ?_, fun hk => ?_⟩ <;>
               first
               | exact CbKind.noConfusion hk
               | (have h2 := heq
                  try simp only [set_caret_onEdit, insert_text] at h2
                  simp [h2]))))

/-- The four events whose handlers invoke a callback (`InsertText`,
`DeleteText`, `Cut` via `on_edit`; `Submit` via `on_submit`). -/
def editLikeEvent : TextEvent E S → Bool
  | TextEvent.InsertText _ => true
  | TextEvent.DeleteText _ => true
  | TextEvent.Cut => true
  | TextEvent.Submit _ => true
  | _ => false

/-- C9: for every dispatch of `InsertText`, `DeleteText`, `Cut` or
`Submit`, (a) each callback slot ends the dispatch holding exactly what it
held before (the invoked callback is taken and then restored); (b) at the
moment a callback is invoked, its own slot holds no callback; and (c)
consequently, any event dispatched against the state visible during the
invocation produces no invocation of the same slot — a callback cannot
recursively invoke itself. -/
theorem c9_callback_take_restore (env : Env) (st : TextboxState E S)
    (ev : TextEvent E S) (he : editLikeEvent ev = true)
    (out : StepOut E S) (hs : step env st ev = Except.ok out) :
    out.state.onEdit = st.onEdit ∧ out.state.onSubmit = st.onSubmit ∧
    ∀ inv ∈ out.invs,
      (inv.kind = CbKind.edit → inv.callState.onEdit = none) ∧
      (inv.kind = CbKind.submit → inv.callState.onSubmit = none) ∧
      ∀ (env2 : Env) (ev2 : TextEvent E S) (out2 : StepOut E S),
        step env2 inv.callState ev2 = Except.ok out2 →
        ∀ inv2 ∈ out2.invs, inv2.kind ≠ inv.kind := by
  cases ev
  case InsertText text =>
    by_cases hed : st.edit
    · simp only [step, hed, if_true] at hs
      split at hs
      next x cb heq =>
        simp only [Except.ok.injEq] at hs
        subst hs
        have hoe : st.onEdit = some cb := by
          simpa [insert_text] using heq
        refine ⟨by simp [hoe], by simp [insert_text], ?_⟩
        intro inv hmem
        simp only [List.mem_singleton] at hmem
        subst hmem
        refine ⟨fun _ => rfl, fun hk => CbKind.noConfusion hk, ?_⟩
        intro env2 ev2 out2 hs2 inv2 hmem2 hk2
        have hsrc := (step_inv_source env2 _ ev2 out2 hs2 inv2 hmem2).1 hk2
        simp at hsrc
      next x heq =>
        simp only [Except.ok.injEq] at hs
        subst hs
        refine ⟨by simp [insert_text], by simp [insert_text], ?_⟩
        intro inv hmem
        simp at hmem
    · have hed' : st.edit = false := by simpa using hed
      have hstep2 : step env st (TextEvent.InsertText text) =
          Except.ok { state := st, invs := [], emitted := [] } := by
        simp [step, hed']
      rw [hstep2] at hs
      injection hs with h
      subst h
      refine ⟨rfl, rfl, ?_⟩
      intro inv hmem
      simp at hmem
  case DeleteText mv =>
    by_cases hed : st.edit
    · simp only [step, hed, if_true] at hs
      split at hs
      next x cb heq =>
        simp only [Except.ok.injEq] at hs
        subst hs
        have hoe : st.onEdit = some cb := by simpa using heq
        refine ⟨by simp [hoe], by simp, ?_⟩
        intro inv hmem
        simp only [List.mem_singleton] at hmem
        subst hmem
        refine ⟨fun _ => rfl, fun hk => CbKind.noConfusion hk, ?_⟩
        intro env2 ev2 out2 hs2 inv2 hmem2 hk2
        have hsrc := (step_inv_source env2 _ ev2 out2 hs2 inv2 hmem2).1 hk2
        simp at hsrc
      next x heq =>
        simp only [Except.ok.injEq] at hs
        subst hs
        refine ⟨by simp, by simp, ?_⟩
        intro inv hmem
        simp at hmem
    · have hed' : st.edit = false := by simpa using hed
      have hstep2 : step env st (TextEvent.DeleteText mv) =
          Except.ok { state := st, invs := [], emitted := [] } := by
        simp [step, hed']
      rw [hstep2] at hs
      injection hs with h
      subst h
      refine ⟨rfl, rfl, ?_⟩
      intro inv hmem
      simp at hmem
  case Cut =>
    by_cases hed : st.edit
    · simp only [step, hed, if_true] at hs
      repeat' split at hs
      all_goals
        first
        | exact Except.noConfusion hs
        | (simp only [Except.ok.injEq] at hs
           subst hs
           refine ⟨by simp, by simp, ?_⟩
           intro inv hmem
           simp at hmem
           done)
        | (simp only [Except.ok.injEq] at hs
           subst hs
           rename_i cb heq
           have hoe : st.onEdit = some cb := by simpa using heq
           refine ⟨by simp [hoe], by simp, ?_⟩
           intro inv hmem
           simp only [List.mem_singleton] at hmem
           subst hmem
           refine ⟨fun _ => rfl, fun hk => CbKind.noConfusion hk, ?_⟩
           intro env2 ev2 out2 hs2 inv2 hmem2 hk2
           have hsrc := (step_inv_source env2 _ ev2 out2 hs2 inv2 hmem2).1 hk2
           simp at hsrc)
    · have hed' : st.edit = false := by simpa using hed
      have hstep2 : step env st TextEvent.Cut =
          Except.ok { state := st, invs := [], emitted := [] } := by
        simp [step, hed']
      rw [hstep2] at hs
      injection hs with h
      subst h
      refine ⟨rfl, rfl, ?_⟩
      intro inv hmem
      simp at hmem
  case Submit reason =>
    simp only [step] at hs
    split at hs
    next x cb heq =>
      simp only [Except.ok.injEq] at hs
      subst hs
      refine ⟨by simp, by simp [heq], ?_⟩
      intro inv hmem
      simp only [List.mem_singleton] at hmem
      subst hmem
      refine ⟨fun hk => CbKind.noConfusion hk, fun _ => rfl, ?_⟩
      intro env2 ev2 out2 hs2 inv2 hmem2 hk2
      have hsrc := (step_inv_source env2 _ ev2 out2 hs2 inv2 hmem2).2 hk2
      simp at hsrc
    next x heq =>
      simp only [Except.ok.injEq] at hs
      subst hs
      refine ⟨rfl, rfl, ?_⟩
      intro inv hmem
      simp at hmem
  all_goals simp [editLikeEvent] at he

/-- The dispatch outcome of `Submit(true)` at the concrete editing state
`stEditing`: the state is restored, the submit callback was invoked once
with the slot taken, and `EndEdit` was emitted. -/
def outC9 : StepOut Unit Unit :=
  { state := stEditing,
    invs := [{ kind := CbKind.submit,
               callState := { stEditing with onSubmit := none },
               text := clone_text edPlain, flag := some true }],
    emitted := [TextEvent.EndEdit] }

/-- C9 witness: the take/restore theorem applied to a concrete `Submit`
dispatch with a registered submit callback. -/
theorem c9_witness :
    outC9.state.onEdit = stEditing.onEdit ∧
    outC9.state.onSubmit = stEditing.onSubmit :=
  ⟨(c9_callback_take_restore envTriv stEditing (TextEvent.Submit true) rfl
      outC9 rfl).1,
   (c9_callback_take_restore envTriv stEditing (TextEvent.Submit true) rfl
      outC9 rfl).2.1⟩

/-- Componentwise box inclusion: `outer` fully contains `inner`. -/
def containsB (outer inner : Box) : Bool :=
  decide (outer.x ≤ inner.x) && decide (inner.x + inner.w ≤ outer.x + outer.w) &&
  decide (outer.y ≤ inner.y) && decide (inner.y + inner.h ≤ outer.y + outer.h)

/-- A box expanded by `m` on every side. -/
def inflate (b : Box) (m : ℚ) : Box :=
  { x := b.x - m, y := b.y - m, w := b.w + 2 * m, h := b.h + 2 * m }

/-- The caret bounding box as rendered under a state's stored viewport
offset: the `layout_caret` box translated by the DPI-scaled transform. -/
def caret_box_shifted (env : Env) (st : TextboxState E S) (cb : Box) : Box :=
  { x := cb.x + st.transform.1 * env.scale,
    y := cb.y + st.transform.2 * env.scale, w := cb.w, h := cb.h }

/-- `ensure_visible` really does bring the target box inside the container
whenever the box fits. -/
theorem ensure_visible_contains (tb cont : Box) (t : ℚ × ℚ)
    (hw : tb.w ≤ cont.w) (hh : tb.h ≤ cont.h) :
    cont.x ≤ tb.x + (ensure_visible tb cont t).1 ∧
    tb.x + tb.w + (ensure_visible tb cont t).1 ≤ cont.x + cont.w ∧
    cont.y ≤ tb.y + (ensure_visible tb cont t).2 ∧
    tb.y + tb.h + (ensure_visible tb cont t).2 ≤ cont.y + cont.h := by
  refine ⟨?_, ?_, ?_, ?_⟩ <;>
  · simp only [ensure_visible]
    split_ifs <;> linarith

/-- C6 (amended): after `set_caret`, the caret box rendered under the
STORED (rounded) offset lies within the container bounds expanded by the
1-pixel inset plus an extra half device pixel of rounding slack on each
side — i.e. within the container inflated by 3/2 physical pixels.  The
containment claimed by the spec (within the 1-pixel-expanded container
alone) fails because the offset produced by `ensure_visible` is rounded to
the device pixel grid before being stored (see the counterexample). -/
theorem c6_caret_rounding_bound (env : Env) (st : TextboxState E S) (cb : Box)
    (hinit : st.contentInit = true) (hcb : env.caretBox = some cb)
    (hscale : 0 < env.scale)
    (hw : cb.w ≤ env.parentBounds.w + 2) (hh : cb.h ≤ env.parentBounds.h) :
    containsB (inflate env.parentBounds (3 / 2))
      (caret_box_shifted env (set_caret env st) cb) = true := by
  obtain ⟨h1, h2, h3, h4⟩ :=
    ensure_visible_contains cb
      { env.parentBounds with x := env.parentBounds.x - 1,
                              w := env.parentBounds.w + 2 }
      (enforce_text_bounds env.bounds env.parentBounds
        (st.transform.1 * env.scale, st.transform.2 * env.scale))
      (by simpa using hw) (by simpa using hh)
  have hr1 := abs_le.mp (abs_sub_round
    ((ensure_visible cb
      { env.parentBounds with x := env.parentBounds.x - 1,
                              w := env.parentBounds.w + 2 }
      (enforce_text_bounds env.bounds env.parentBounds
        (st.transform.1 * env.scale, st.transform.2 * env.scale))).1))
  have hr2 := abs_le.mp (abs_sub_round
    ((ensure_visible cb
      { env.parentBounds with x := env.parentBounds.x - 1,
                              w := env.parentBounds.w + 2 }
      (enforce_text_bounds env.bounds env.parentBounds
        (st.transform.1 * env.scale, st.transform.2 * env.scale))).2))
  simp only [containsB, caret_box_shifted, inflate, set_caret, hinit, if_true,
    hcb, Bool.and_eq_true, decide_eq_true_eq]
  rw [div_mul_cancel₀ _ (ne_of_gt hscale), div_mul_cancel₀ _ (ne_of_gt hscale)]
  simp only at h1 h2 h3 h4
  refine ⟨⟨⟨?_, ?_⟩, ?_⟩, ?_⟩
  · linarith [hr1.1, hr1.2]
  · linarith [hr1.1, hr1.2]
  · linarith [hr2.1, hr2.2]
  · linarith [hr2.1, hr2.2]

/-- The caret geometry of the C6 counterexample: a 1-unit-wide caret whose
content-space right edge (21.4 physical px) forces a fractional scroll
offset. -/
def cbC6 : Box := { x := 102 / 5, y := 0, w := 1, h := 1 }

/-- The environment of the C6 counterexample: DPI scale 1, content 30 px
wide inside a 10 px container, caret at `cbC6`. -/
def envC6 : Env :=
  { envTriv with
    bounds := { x := 0, y := 0, w := 30, h := 10 },
    parentBounds := { x := 0, y := 0, w := 10, h := 10 },
    caretBox := some cbC6 }

/-- A concrete editing state with initialized content and zero transform. -/
def stC6 : TextboxState Unit Unit :=
  { stNoEdit with edit := true, contentInit := true }

/-- The C6 state after the `MoveCursor` buffer mutation, before
`set_caret`. -/
def stC6b : TextboxState Unit Unit :=
  { stC6 with editor := move_cursor envC6 Movement.LineStart false stC6.editor }

/-- C6: counterexample to the claim as stated.  Dispatching a `MoveCursor`
while editing recomputes the caret via `set_caret`, which stores the
rounded offset `-10` (from the exact `ensure_visible` result `-10.4`);
under that stored offset the caret box ends at `11.4 > 11`: it does NOT
lie within the container bounds expanded by the 1-pixel inset. -/
theorem c6_counterexample :
    step envC6 stC6 (TextEvent.MoveCursor Movement.LineStart false) =
      Except.ok { state := set_caret envC6 stC6b, invs := [], emitted := [] } ∧
    containsB (inflate envC6.parentBounds 1)
      (caret_box_shifted envC6 (set_caret envC6 stC6b) cbC6) = false := by
  constructor
  · simp [step, stC6b, stC6, stNoEdit, freshTextboxData]
  · have htr : (set_caret envC6 stC6b).transform = (-10, 0) := by
      simp only [set_caret]
      norm_num [envC6, envTriv, stC6b, stC6, stNoEdit, freshTextboxData, edPlain,
        enforce_text_bounds, ensure_visible, cbC6, round_eq]
    have hne : ¬ (containsB (inflate envC6.parentBounds 1)
        (caret_box_shifted envC6 (set_caret envC6 stC6b) cbC6) = true) := by
      simp only [containsB, caret_box_shifted, inflate, htr, Bool.and_eq_true,
        decide_eq_true_eq]
      norm_num [envC6, envTriv, cbC6]
    simpa using hne

/-- The caret geometry of the C6 witness (fits comfortably). -/
def cbC6W : Box := { x := 2, y := 2, w := 1, h := 1 }

/-- The C6 witness environment. -/
def envC6W : Env := { envC6 with caretBox := some cbC6W }

/-- C6 witness: the amended bound applied at a concrete caret/container
configuration. -/
theorem c6_witness :
    containsB (inflate envC6W.parentBounds (3 / 2))
      (caret_box_shifted envC6W (set_caret envC6W stC6) cbC6W) = true :=
  c6_caret_rounding_bound envC6W stC6 cbC6W rfl rfl
    (by norm_num [envC6W, envC6, envTriv])
    (by norm_num [cbC6W, envC6W, envC6, envTriv])
    (by norm_num [cbC6W, envC6W, envC6, envTriv])

end VTextbox
